import Mathlib

/-!
A shallow embedding of the melange IPAM model layer (the module
melange/ipam/models.py together with the address arithmetic it uses).
That implementation file is absent from the source tree (only its unit
tests, melange/tests/unit/test_ipam_models.py, are present), so every
definition below is modelled from the specification, with concrete
behaviour pinned by the assertions of those unit tests.  IPv4 addresses
are represented by their numeric value (a Nat below 2^32); timestamps
are represented in days as Nat; the persistence collaborator is
represented by explicit lists of rows passed through each operation.
-/

namespace Melange

/-- Numeric value of a dotted-quad IPv4 address. -/
def ipv4 (a b c d : Nat) : Nat := ((a * 256 + b) * 256 + c) * 256 + d

/-- Decimal digits of `n`, most significant first; `fuel` bounds the
recursion depth (any fuel with n < 10 ^ fuel and 1 ≤ fuel is exact). -/
def decDigitsCore : Nat → Nat → List Char
  | 0, _ => []
  | fuel + 1, n =>
      if n < 10 then [Char.ofNat (48 + n)]
      else decDigitsCore fuel (n / 10) ++ [Char.ofNat (48 + n % 10)]

/-- Canonical decimal digit list of a natural number (no leading zero). -/
def decDigits (n : Nat) : List Char := decDigitsCore (n + 1) n

/-- Decimal digit string of a natural number. -/
def decStr (n : Nat) : String := String.mk (decDigits n)

/-- Dotted-decimal rendering of a numeric IPv4 address. -/
def v4Str (n : Nat) : String :=
  decStr (n / 16777216 % 256) ++ "." ++ decStr (n / 65536 % 256) ++ "." ++
    decStr (n / 256 % 256) ++ "." ++ decStr (n % 256)

/-- Modelled from the spec: an IPv4 leaf IpBlock as the allocation engine
sees it.  `net` is the canonicalized network address, `count` the number
of addresses in the cidr, `gateway` the block's gateway address and
`is_full` the cached fullness flag. -/
structure V4Block where
  net : Nat
  count : Nat
  gateway : Nat
  is_full : Bool
deriving DecidableEq

/-- Broadcast (last) address of the block's cidr. -/
def broadcastAddr (b : V4Block) : Nat := b.net + b.count - 1

/-- Whether a numeric address lies inside the block's cidr. -/
def containsAddr (b : V4Block) (a : Nat) : Bool :=
  decide (b.net ≤ a) && decide (a < b.net + b.count)

/-- Modelled from the spec: absent a caller-supplied gateway, saving an
IpBlock defaults the gateway to the first usable address of the cidr
(the unit tests pin 10.0.0.1 for 10.0.0.0/24). -/
def defaultGateway (net : Nat) : Nat := net + 1

/-- Build a block from network address and cidr prefix length, applying
the default gateway when none is given. -/
def mkV4Block (net prefixLen : Nat) (gw : Option Nat) : V4Block :=
  { net := net, count := 2 ^ (32 - prefixLen),
    gateway := gw.getD (defaultGateway net), is_full := false }

/-- First value in the interval from `start` (inclusive), of width `n`,
satisfying `p`, scanning upward one address at a time. -/
def scanFirst (p : Nat → Bool) : Nat → Nat → Option Nat
  | _, 0 => none
  | start, n + 1 => if p start then some start else scanFirst p (start + 1) n

/-- Modelled from the spec and pinned by the unit tests: a candidate
address of the sequential IPv4 scan is usable when it is not the
broadcast address, not the block's gateway, not already taken (active or
pending deallocation) and not disallowed by the block's policy.  The
network address itself is a usable candidate: the tests allocate
10.0.0.0 first on a fresh 10.0.0.0/30 block. -/
def allocCandidateOk (b : V4Block) (taken : List Nat) (allowed : Nat → Bool)
    (a : Nat) : Bool :=
  a != broadcastAddr b && a != b.gateway && !(taken.contains a) && allowed a

/-- Outcome of the address-omitted allocation path. -/
inductive AllocResult where
  | ok (addr : Nat)
  | noMoreAddresses
deriving DecidableEq

/-- Modelled from the spec: IpBlock.allocate_ip without an explicit
address on an IPv4 leaf block.  Fails immediately when the block is
marked full; otherwise scans the cidr sequentially from the network
address upward for the first usable candidate; on exhaustion sets
is_full and fails with NoMoreAddressesError (represented by the
`noMoreAddresses` result).  Returns the result together with the updated
block and the updated taken-address list. -/
def allocate_ip (b : V4Block) (taken : List Nat) (allowed : Nat → Bool) :
    AllocResult × V4Block × List Nat :=
  if b.is_full then (AllocResult.noMoreAddresses, b, taken)
  else
    match scanFirst (allocCandidateOk b taken allowed) b.net b.count with
    | some a => (AllocResult.ok a, b, a :: taken)
    | none => (AllocResult.noMoreAddresses, { b with is_full := true }, taken)

/-- A policy admitting every address (a block with no policy). -/
def allowAll : Nat → Bool := fun _ => true

/-- The block of the sequential-allocation scenario: cidr 10.0.0.0/30,
no explicit gateway. -/
def c1Block : V4Block := mkV4Block (ipv4 10 0 0 0) 30 none

/-- First, second and third successive allocations on c1Block. -/
def c1s1 : AllocResult × V4Block × List Nat := allocate_ip c1Block [] allowAll

/-- Second allocation, on the state left by the first. -/
def c1s2 : AllocResult × V4Block × List Nat :=
  allocate_ip c1s1.2.1 c1s1.2.2 allowAll

/-- Third allocation, on the state left by the second. -/
def c1s3 : AllocResult × V4Block × List Nat :=
  allocate_ip c1s2.2.1 c1s2.2.2 allowAll

/-- Modelled from the spec: a persisted IpAddress row for some block.
`deallocated_at` is a day-granularity timestamp, present exactly when
the row has been soft-deleted. -/
structure IpRow where
  address : Nat
  marked_for_deallocation : Bool
  deallocated_at : Option Nat
deriving DecidableEq

/-- Look up the row of a given address among a block's rows (both active
and pending-deallocation rows are found). -/
def findRow (rows : List IpRow) (a : Nat) : Option IpRow :=
  rows.find? (fun r => r.address == a)

/-- Outcome of the explicit-address allocation paths. -/
inductive AllocOutcome where
  | allocated (r : IpRow)
  | existing (r : IpRow)
  | duplicateAddressError
  | addressLockedError
  | addressDoesNotBelongError
  | addressDisallowedByPolicyError
deriving DecidableEq

/-- Modelled from the spec: IpBlock.allocate_ip with an explicit address.
Fails AddressDoesNotBelongError outside the cidr; fails
DuplicateAddressError when a row already exists for the address (active
or pending deallocation) and also when the address is the block's
gateway or broadcast address (the unit tests pin DuplicateAddressError
for explicit allocation of gateway and broadcast); fails
AddressDisallowedByPolicyError when the policy rejects it; otherwise
reserves a fresh active row. -/
def allocate_given (b : V4Block) (rows : List IpRow) (allowed : Nat → Bool)
    (a : Nat) : AllocOutcome :=
  if !(containsAddr b a) then AllocOutcome.addressDoesNotBelongError
  else if a == b.gateway || a == broadcastAddr b || (findRow rows a).isSome then
    AllocOutcome.duplicateAddressError
  else if !(allowed a) then AllocOutcome.addressDisallowedByPolicyError
  else AllocOutcome.allocated ⟨a, false, none⟩

/-- Modelled from the spec: IpBlock.find_or_allocate_ip.  An existing
soft-deleted row fails AddressLockedError; an existing active row is
returned idempotently; otherwise the explicit-address allocate path is
used. -/
def find_or_allocate_ip (b : V4Block) (rows : List IpRow)
    (allowed : Nat → Bool) (a : Nat) : AllocOutcome :=
  match findRow rows a with
  | some r =>
      if r.marked_for_deallocation then AllocOutcome.addressLockedError
      else AllocOutcome.existing r
  | none => allocate_given b rows allowed a

/-- Block used by the explicit-allocation scenarios: 10.0.0.0/30 with
the default gateway 10.0.0.1. -/
def c3Block : V4Block := mkV4Block (ipv4 10 0 0 0) 30 none

/-- A soft-deleted row for 10.0.0.2, and an active row for the same. -/
def c3MarkedRow : IpRow := ⟨ipv4 10 0 0 2, true, some 0⟩

/-- Active (never deallocated) row for 10.0.0.2. -/
def c3ActiveRow : IpRow := ⟨ipv4 10 0 0 2, false, none⟩

/-- Modelled from the spec: the cached fullness flag is all the garbage
collector reads or writes of a block. -/
structure GcBlock where
  is_full : Bool
deriving DecidableEq

/-- Modelled from the spec: a soft-deleted row qualifies for purge when
it is marked for deallocation and was deallocated at least the retention
window ago.  The unit tests pin the boundary: a row deallocated exactly
`days` days before now is purged. -/
def purgeQualifies (now days : Nat) (r : IpRow) : Bool :=
  r.marked_for_deallocation &&
    match r.deallocated_at with
    | some d => decide (d + days ≤ now)
    | none => false

/-- Modelled from the spec: the configured retention window
keep_deallocated_ips_for_days, defaulting to 2 when unset. -/
def keepDays (cfg : Option Nat) : Nat := cfg.getD 2

/-- Modelled from the spec: IpBlock.delete_deallocated_ips hard-deletes
every qualifying soft-deleted row of the block and resets the block's
is_full flag. -/
def delete_deallocated_ips (now days : Nat) (b : GcBlock × List IpRow) :
    GcBlock × List IpRow :=
  (⟨false⟩, b.2.filter (fun r => !purgeQualifies now days r))

/-- Whether a block currently has any soft-deleted row. -/
def hasDeallocatedIps (rows : List IpRow) : Bool :=
  rows.any (fun r => r.marked_for_deallocation)

/-- Per-block step of the global purge: blocks holding at least one
soft-deleted row are purged (and their is_full flag reset); other blocks
are left untouched. -/
def deleteAllStep (now days : Nat) (b : GcBlock × List IpRow) :
    GcBlock × List IpRow :=
  if hasDeallocatedIps b.2 then delete_deallocated_ips now days b else b

/-- Modelled from the spec: IpBlock.delete_all_deallocated_ips purges
every block that has soft-deleted rows. -/
def delete_all_deallocated_ips (now days : Nat)
    (blocks : List (GcBlock × List IpRow)) : List (GcBlock × List IpRow) :=
  blocks.map (deleteAllStep now days)

/-- An active row and an old soft-deleted row used by the GC scenarios. -/
def gcActiveRow : IpRow := ⟨ipv4 10 0 0 0, false, none⟩

/-- Row soft-deleted at day 0. -/
def gcMarkedRow : IpRow := ⟨ipv4 10 0 0 2, true, some 0⟩

/-- Modelled from the spec: the slice of an IpBlock that the creation
validation's overlap rules inspect. -/
structure BlockRec where
  net : Nat
  prefixLen : Nat
  btype : String
  network_id : Option String
  parent_id : Option Nat
deriving DecidableEq

/-- Number of addresses in the block's cidr. -/
def blockCount (b : BlockRec) : Nat := 2 ^ (32 - b.prefixLen)

/-- Whether two blocks' cidrs overlap as address intervals. -/
def overlapsCidr (a b : BlockRec) : Bool :=
  decide (max a.net b.net < min (a.net + blockCount a) (b.net + blockCount b))

/-- Two blocks share a network exactly when both carry the same non-null
network_id (an unset network_id never counts as shared). -/
def sameNetwork (a b : BlockRec) : Bool :=
  match a.network_id, b.network_id with
  | some x, some y => x == y
  | _, _ => false

/-- A top-level (parent-less) block. -/
def isTopLevel (b : BlockRec) : Bool := b.parent_id.isNone

/-- Rendering of the block's cidr, as used in validation messages. -/
def blockCidrStr (b : BlockRec) : String :=
  v4Str b.net ++ "/" ++ decStr b.prefixLen

/-- Modelled from the spec: validation errors of the network-scoped
top-level overlap rule, one per overlapping parent-less block sharing
the new block's network_id. -/
def networkOverlapErrors (store : List BlockRec) (nb : BlockRec) :
    List String :=
  if nb.parent_id.isNone then
    (store.filter
        (fun b => isTopLevel b && sameNetwork nb b && overlapsCidr nb b)).map
      (fun b => "cidr overlaps with block " ++ blockCidrStr b ++
        " in same network")
  else []

/-- Modelled from the spec: validation errors of the public-type overlap
rule, one per overlapping public block regardless of network_id. -/
def publicOverlapErrors (store : List BlockRec) (nb : BlockRec) :
    List String :=
  if nb.btype == "public" then
    (store.filter (fun b => b.btype == "public" && overlapsCidr nb b)).map
      (fun b => "cidr overlaps with public block " ++ blockCidrStr b)
  else []

/-- A new block passes the overlap validation when both overlap rules
produce no error. -/
def cidrOverlapValid (store : List BlockRec) (nb : BlockRec) : Bool :=
  (networkOverlapErrors store nb ++ publicOverlapErrors store nb).isEmpty

/-- Existing public block 10.0.0.0/8 in network 145. -/
def pubBlock8 : BlockRec := ⟨ipv4 10 0 0 0, 8, "public", some "145", none⟩

/-- New public block 10.0.0.0/30 in a different network 11. -/
def pubBlock30 : BlockRec := ⟨ipv4 10 0 0 0, 30, "public", some "11", none⟩

/-- Public block 20.0.0.0/29 in network 1, overlapping no public block. -/
def pubBlock20 : BlockRec := ⟨ipv4 20 0 0 0, 29, "public", some "1", none⟩

/-- Private block 10.0.0.0/29 in network 1. -/
def privBlockNet1 : BlockRec := ⟨ipv4 10 0 0 0, 29, "private", some "1", none⟩

/-- Private block 10.0.0.0/29 in network 2 (same cidr as privBlockNet1). -/
def privBlockNet2 : BlockRec := ⟨ipv4 10 0 0 0, 29, "private", some "2", none⟩

/-- Private block 10.0.0.0/29 with no network_id. -/
def privBlockNoNet : BlockRec := ⟨ipv4 10 0 0 0, 29, "private", none, none⟩

/-- A cidr for the policy engine: network address and prefix length. -/
structure Cidr where
  net : Nat
  prefixLen : Nat
deriving DecidableEq

/-- Number of addresses in a cidr. -/
def addressCount (c : Cidr) : Nat := 2 ^ (32 - c.prefixLen)

/-- 0-based index of an address from the cidr's network address, as an
integer so that addresses below the network address index negatively. -/
def indexOfAddr (c : Cidr) (a : Nat) : Int := (a : Int) - (c.net : Int)

/-- Modelled from the spec: IpRange.contains.  With `last` the index of
the cidr's final address, a non-negative offset covers indices from
offset (width `len`), a negative offset covers indices from
last + offset + 1 (counted back from the top of the block); only
addresses inside the cidr are ever contained. -/
def rangeContains (offset : Int) (len : Nat) (c : Cidr) (a : Nat) : Bool :=
  let idx : Int := indexOfAddr c a
  let total : Int := (addressCount c : Int)
  let lo : Int := if 0 ≤ offset then offset else total - 1 + offset + 1
  decide (0 ≤ idx) && decide (idx < total) &&
    decide (lo ≤ idx) && decide (idx < lo + (len : Int))

/-- The /29 cidr of the IpRange scenarios. -/
def c7Cidr : Cidr := ⟨ipv4 10 0 0 0, 29⟩

/-- Split a character list into groups separated by `c`. -/
def splitChar (c : Char) : List Char → List (List Char)
  | [] => [[]]
  | x :: xs =>
      let r := splitChar c xs
      if x = c then [] :: r
      else
        match r with
        | [] => [[x]]
        | g :: gs => (x :: g) :: gs

/-- Decimal value of a digit string (leading zeros permitted). -/
def parseDecChars (cs : List Char) : Nat :=
  cs.foldl (fun acc c => acc * 10 + (c.toNat - 48)) 0

/-- Value of one hexadecimal digit. -/
def hexVal (c : Char) : Nat :=
  if 48 ≤ c.toNat && c.toNat ≤ 57 then c.toNat - 48
  else if 97 ≤ c.toNat && c.toNat ≤ 102 then c.toNat - 87
  else if 65 ≤ c.toNat && c.toNat ≤ 70 then c.toNat - 55
  else 0

/-- Value of a hexadecimal group. -/
def parseHexChars (cs : List Char) : Nat :=
  cs.foldl (fun acc c => acc * 16 + hexVal c) 0

/-- Lower-case hexadecimal digit character. -/
def hexDigitChar (n : Nat) : Char :=
  if n < 10 then Char.ofNat (48 + n) else Char.ofNat (87 + n)

/-- Four-hex-digit rendering of a 16-bit group. -/
def hex4Chars (n : Nat) : List Char :=
  [hexDigitChar (n / 4096 % 16), hexDigitChar (n / 256 % 16),
    hexDigitChar (n / 16 % 16), hexDigitChar (n % 16)]

/-- Join character groups with a separator (inverse of splitChar when no
group contains the separator). -/
def joinChar (c : Char) : List (List Char) → List Char
  | [] => []
  | [g] => g
  | g :: g2 :: gs => g ++ c :: joinChar c (g2 :: gs)

/-- Expand a double-colon-compressed IPv6 group list to its 8 groups. -/
def expandV6Groups (gs : List (List Char)) : List (List Char) :=
  if gs.any List.isEmpty then
    let left := gs.takeWhile (fun g => !g.isEmpty)
    let right := (gs.dropWhile (fun g => !g.isEmpty)).filter
      (fun g => !g.isEmpty)
    left ++ List.replicate (8 - left.length - right.length) ['0'] ++ right
  else gs

/-- A lower-case hexadecimal digit character (0-9 or a-f). -/
def isLowerHexDigit (c : Char) : Bool :=
  (48 ≤ c.toNat && c.toNat ≤ 57) || (97 ≤ c.toNat && c.toNat ≤ 102)

/-- A canonical decimal octet group: nonempty, all digits, and no
leading zero (a single 0 is canonical). -/
def isCanonicalDecGroup (g : List Char) : Bool :=
  !g.isEmpty && g.all (fun ch => ch.isDigit) &&
    (g.length == 1 || !(g.head? == some '0'))

/-- A syntactically admissible compressed IPv6 group list: with a
double colon, at most 8 explicit groups; without one, exactly 8. -/
def v6GroupsWellFormed (gs : List (List Char)) : Bool :=
  if gs.any List.isEmpty then
    decide ((gs.filter (fun g => !g.isEmpty)).length ≤ 8)
  else gs.length == 8

/-- Modelled from the spec and pinned by the unit tests: the address
canonicalization applied before an IpAddress is saved.  IPv6 addresses
are expanded to 8 groups of 4 lower-case hex digits; IPv4 addresses are
re-rendered in canonical dotted-decimal (each octet parsed as a decimal
number and printed without leading zeros, so padding present in the
input is removed: the tests store 10.11.003.255 as 10.11.3.255). -/
def expandAddress (s : String) : String :=
  if s.toList.contains ':' then
    String.mk (joinChar ':'
      ((expandV6Groups (splitChar ':' s.toList)).map
        (fun g => hex4Chars (parseHexChars g))))
  else
    String.mk (joinChar '.'
      ((splitChar '.' s.toList).map (fun g => decDigits (parseDecChars g))))

/-- Left-pad a digit group with zeros to width 3. -/
def zeroPad3 (cs : List Char) : List Char :=
  List.replicate (3 - cs.length) '0' ++ cs

/-- The IPv4 canonical form the spec's words describe (octets
zero-padded), stated for comparison with the implementation-pinned
expandAddress. -/
def claimedV4Canonical (s : String) : String :=
  String.intercalate "."
    ((splitChar '.' s.toList).map
      (fun g => String.mk (zeroPad3 (Nat.toDigits 10 (parseDecChars g)))))

/-- Modelled from the spec: the attributes of ModelBase relevant to
auto-generated-attribute handling; network_id stands in for an ordinary
caller-controlled attribute. -/
structure MBase where
  mid : Option String
  created_at : Option String
  updated_at : Option String
  network_id : Option String
deriving DecidableEq

/-- Caller-supplied values handed to create or update, including
attempted values for the auto-generated attributes. -/
structure MInput where
  mid : Option String
  created_at : Option String
  updated_at : Option String
  network_id : Option String
deriving DecidableEq

/-- Modelled from the spec and pinned by the unit tests: ModelBase
creation stores a generated id and sets both timestamps from the
injected clock, ignoring any caller-supplied values for those three
attributes; ordinary attributes are taken from the input. -/
def mbCreate (inp : MInput) (genId now : String) : MBase :=
  { mid := some genId, created_at := some now, updated_at := some now,
    network_id := inp.network_id }

/-- Modelled from the spec and pinned by the unit tests: ModelBase
update keeps id and created_at, sets updated_at from the injected clock
ignoring any caller-supplied values for the three auto-generated
attributes, and applies supplied ordinary attributes. -/
def mbUpdate (m : MBase) (inp : MInput) (now : String) : MBase :=
  { mid := m.mid, created_at := m.created_at, updated_at := some now,
    network_id := match inp.network_id with
      | some v => some v
      | none => m.network_id }

/-- Input supplying values for every auto-generated attribute, the
timestamps coinciding with the clock value used in the counterexample. -/
def c9Input : MInput := ⟨some "gid-1", some "2050-01-01", some "2050-01-01", none⟩

/-- Modelled from the unit tests (the spec is silent on model equality;
models.py is absent from the source tree): a model instance carries its
class tag, an optional id and its other attributes. -/
structure MRec where
  cls : String
  mid : Option Nat
  attrs : List (String × String)
deriving DecidableEq

/-- Modelled from the unit tests: ModelBase equality compares only the
class and the id, and instances without an id equal nothing. -/
def modelEq (a b : MRec) : Bool :=
  a.cls == b.cls &&
    match a.mid, b.mid with
    | some x, some y => x == y
    | _, _ => false

end Melange

namespace Melange

/-- Helper: a successful sequential scan returns an element of the
scanned interval satisfying the predicate, and every earlier element of
the interval fails the predicate. -/
theorem scanFirst_some_spec (p : Nat → Bool) :
    ∀ n start a, scanFirst p start n = some a →
      start ≤ a ∧ a < start + n ∧ p a = true ∧
        ∀ x, start ≤ x → x < a → p x = false := by
  intro n
  induction n with
  | zero => intro start a h; simp [scanFirst] at h
  | succ k ih =>
    intro start a h
    rw [scanFirst] at h
    by_cases hp : p start
    · rw [if_pos hp] at h
      cases h
      exact ⟨Nat.le_refl _, by omega, hp,
        fun x hx1 hx2 => absurd (Nat.lt_of_le_of_lt hx1 hx2) (Nat.lt_irrefl _)⟩
    · rw [if_neg hp] at h
      obtain ⟨h1, h2, h3, h4⟩ := ih (start + 1) a h
      refine ⟨by omega, by omega, h3, ?_⟩
      intro x hx1 hx2
      rcases Nat.eq_or_lt_of_le hx1 with heq | hlt
      · rw [← heq]; exact Bool.eq_false_iff.mpr hp
      · exact h4 x hlt hx2

/-- C1: on a block created with cidr 10.0.0.0/30 and no explicit gateway
(so the gateway defaults to 10.0.0.1), successive address-omitted
allocations return 10.0.0.0 and then 10.0.0.2, and the next call fails
with NoMoreAddressesError and sets the block's is_full flag. -/
theorem c1_sequential_allocation_on_slash30 :
    c1Block.gateway = ipv4 10 0 0 1 ∧
    c1s1.1 = AllocResult.ok (ipv4 10 0 0 0) ∧
    c1s2.1 = AllocResult.ok (ipv4 10 0 0 2) ∧
    c1s3.1 = AllocResult.noMoreAddresses ∧
    c1s3.2.1.is_full = true := by decide

/-- C2 counterexample: the first address-omitted allocation on the fresh
10.0.0.0/30 block returns the block's network address itself, so the
sequential scan does not exclude the network address as the claim
states. -/
theorem c2_counterexample_network_address_allocated :
    (allocate_ip c1Block [] allowAll).1 = AllocResult.ok c1Block.net := by
  decide

/-- C2 amended: an address-omitted IPv4 allocation that succeeds returns
an address of the block's cidr that is not the broadcast address, not
the gateway, not already taken and not policy-disallowed, and every
smaller address of the cidr (the scan starts at the network address,
which is itself allocatable) is excluded for one of those reasons. -/
theorem c2_amended_scan_returns_first_free (b : V4Block) (taken : List Nat)
    (allowed : Nat → Bool) (a : Nat)
    (h : (allocate_ip b taken allowed).1 = AllocResult.ok a) :
    b.net ≤ a ∧ a < b.net + b.count ∧
    a ≠ broadcastAddr b ∧ a ≠ b.gateway ∧
    taken.contains a = false ∧ allowed a = true ∧
    ∀ x, b.net ≤ x → x < a →
      x = broadcastAddr b ∨ x = b.gateway ∨
        taken.contains x = true ∨ allowed x = false := by
  rw [allocate_ip] at h
  by_cases hf : b.is_full
  · rw [if_pos hf] at h; simp at h
  · rw [if_neg hf] at h
    cases hscan : scanFirst (allocCandidateOk b taken allowed) b.net b.count with
    | none => rw [hscan] at h; simp at h
    | some c =>
      rw [hscan] at h
      simp at h
      subst h
      obtain ⟨h1, h2, h3, h4⟩ := scanFirst_some_spec _ _ _ _ hscan
      rw [allocCandidateOk] at h3
      simp only [Bool.and_eq_true, bne_iff_ne, Bool.not_eq_true'] at h3
      obtain ⟨⟨⟨hbr, hgw⟩, htk⟩, hal⟩ := h3
      refine ⟨h1, h2, hbr, hgw, htk, hal, ?_⟩
      intro x hx1 hx2
      have hfx := h4 x hx1 hx2
      rw [allocCandidateOk] at hfx
      by_cases e1 : x = broadcastAddr b
      · exact Or.inl e1
      by_cases e2 : x = b.gateway
      · exact Or.inr (Or.inl e2)
      by_cases e3 : taken.contains x
      · exact Or.inr (Or.inr (Or.inl e3))
      · refine Or.inr (Or.inr (Or.inr ?_))
        simp only [Bool.and_eq_false_iff, bne_eq_false_iff_eq,
          Bool.not_eq_false'] at hfx
        rcases hfx with ((e | e) | e) | e
        · exact absurd e e1
        · exact absurd e e2
        · exact absurd e e3
        · exact e

/-- C2 witness: the amended theorem applies to the concrete first
allocation on the 10.0.0.0/30 block. -/
theorem c2_amended_scan_witness : c1Block.net ≤ ipv4 10 0 0 0 :=
  (c2_amended_scan_returns_first_free c1Block [] allowAll (ipv4 10 0 0 0)
    (by decide)).1

/-- C3 counterexample: with no IpAddress row at all for the block's
gateway address, find_or_allocate_ip does not allocate it but fails with
DuplicateAddressError, so the claim's final clause (no row implies the
address is allocated) is false. -/
theorem c3_counterexample_gateway_not_allocated :
    findRow [] c3Block.gateway = none ∧
    find_or_allocate_ip c3Block [] allowAll c3Block.gateway =
      AllocOutcome.duplicateAddressError := by decide

/-- C3 amended: a soft-deleted row makes find_or_allocate_ip fail with
AddressLockedError and the explicit allocate path fail with
DuplicateAddressError; an active row is returned idempotently; with no
row, find_or_allocate_ip delegates to the explicit allocate path, which
reserves the address provided it lies in the block's cidr, is neither
the gateway nor the broadcast address, and is policy-allowed. -/
theorem c3_amended_find_or_allocate (b : V4Block) (rows : List IpRow)
    (allowed : Nat → Bool) (a : Nat) :
    (∀ r, findRow rows a = some r → r.marked_for_deallocation = true →
        find_or_allocate_ip b rows allowed a =
          AllocOutcome.addressLockedError ∧
        (containsAddr b a = true →
          allocate_given b rows allowed a =
            AllocOutcome.duplicateAddressError)) ∧
    (∀ r, findRow rows a = some r → r.marked_for_deallocation = false →
        find_or_allocate_ip b rows allowed a = AllocOutcome.existing r) ∧
    (findRow rows a = none →
        find_or_allocate_ip b rows allowed a =
          allocate_given b rows allowed a) ∧
    (findRow rows a = none → containsAddr b a = true → a ≠ b.gateway →
      a ≠ broadcastAddr b → allowed a = true →
        find_or_allocate_ip b rows allowed a =
          AllocOutcome.allocated ⟨a, false, none⟩) := by
  refine ⟨?_, ?_, ?_, ?_⟩
  · intro r hr hm
    constructor
    · simp [find_or_allocate_ip, hr, hm]
    · intro hc
      simp [allocate_given, hc, hr]
  · intro r hr hm
    simp [find_or_allocate_ip, hr, hm]
  · intro hn
    simp [find_or_allocate_ip, hn]
  · intro hn hc hgw hbr hal
    simp [find_or_allocate_ip, hn, allocate_given, hc, hal, beq_iff_eq,
      hgw, hbr]

/-- C3 witness: the amended theorem applies to the concrete soft-deleted
row for 10.0.0.2 on the 10.0.0.0/30 block. -/
theorem c3_amended_witness :
    find_or_allocate_ip c3Block [c3MarkedRow] allowAll (ipv4 10 0 0 2) =
      AllocOutcome.addressLockedError :=
  (((c3_amended_find_or_allocate c3Block [c3MarkedRow] allowAll
    (ipv4 10 0 0 2)).1 c3MarkedRow (by decide) (by decide))).1

end Melange

namespace Melange

/-- C4 counterexample: a row soft-deleted exactly the retention window
ago (deallocated_at day 0, window 2 days, now day 2) is hard-deleted by
the purge although its deallocation time is not strictly older than
now minus the window, so the claim's strict "older than" reading is
false at this input. -/
theorem c4_counterexample_boundary_purged :
    (delete_deallocated_ips 2 2 (GcBlock.mk true, [gcMarkedRow])).2 = [] ∧
    gcMarkedRow.deallocated_at = some 0 ∧
    ¬ ((0 : Int) < (2 : Int) - (2 : Int)) := by decide

/-- C4 amended: the purge keeps exactly the rows that do not qualify,
and a row qualifies exactly when it is marked for deallocation and its
deallocation time is older than or equal to now minus the retention
window (the boundary is deleted); the default window is 2 days, and a
configured value overrides it.  The concrete conjunct mirrors the
default-window unit test: of three rows, the two deallocated two days
ago are deleted and the active one kept. -/
theorem c4_amended_purge_retention (now days : Nat) (b : GcBlock × List IpRow)
    (r : IpRow) :
    (r ∈ (delete_deallocated_ips now days b).2 ↔
      r ∈ b.2 ∧ purgeQualifies now days r = false) ∧
    (purgeQualifies now days r = true ↔
      r.marked_for_deallocation = true ∧
        ∃ d, r.deallocated_at = some d ∧
          (d : Int) ≤ (now : Int) - (days : Int)) ∧
    keepDays none = 2 ∧ keepDays (some 5) = 5 ∧
    (delete_deallocated_ips 2 2 (GcBlock.mk false,
        [⟨ipv4 10 0 1 1, true, some 0⟩, ⟨ipv4 10 0 1 2, false, none⟩,
          ⟨ipv4 10 0 1 3, true, some 0⟩])).2 =
      [⟨ipv4 10 0 1 2, false, none⟩] := by
  refine ⟨?_, ?_, rfl, rfl, by decide⟩
  · simp [delete_deallocated_ips, List.mem_filter, Bool.not_eq_true']
  · cases hda : r.deallocated_at with
    | none => simp [purgeQualifies, hda]
    | some d =>
      simp only [purgeQualifies, hda, Bool.and_eq_true, decide_eq_true_iff]
      constructor
      · rintro ⟨hm, hle⟩
        exact ⟨hm, d, rfl, by omega⟩
      · rintro ⟨hm, d2, hd2, hle⟩
        cases Option.some.inj hd2
        exact ⟨hm, by omega⟩

/-- C4 witness: the amended theorem applies to the boundary row. -/
theorem c4_amended_witness :
    purgeQualifies 2 2 gcMarkedRow = true :=
  (c4_amended_purge_retention 2 2 (GcBlock.mk true, [gcMarkedRow])
    gcMarkedRow).2.1.mpr ⟨by decide, 0, by decide, by decide⟩

/-- C5: the global purge processes each block independently; whenever a
block loses at least one address its is_full flag afterwards is false,
and the concrete conjunct shows this even for a block that still holds
an active (never deallocated) address after the purge. -/
theorem c5_purge_resets_is_full :
    (∀ now days blocks, delete_all_deallocated_ips now days blocks =
        blocks.map (deleteAllStep now days)) ∧
    (∀ now days blk rows,
        (deleteAllStep now days (blk, rows)).2.length < rows.length →
          (deleteAllStep now days (blk, rows)).1.is_full = false) ∧
    deleteAllStep 2 2 (GcBlock.mk true, [gcActiveRow, gcMarkedRow]) =
      (GcBlock.mk false, [gcActiveRow]) := by
  refine ⟨fun _ _ _ => rfl, ?_, by decide⟩
  intro now days blk rows h
  by_cases hd : hasDeallocatedIps rows
  · simp [deleteAllStep, hd, delete_deallocated_ips]
  · simp only [deleteAllStep, hd, if_neg] at h
    · exact absurd h (Nat.lt_irrefl _)

/-- C5 witness: the claim theorem applies to the concrete full block
with one active and one purged address. -/
theorem c5_purge_resets_is_full_witness :
    (deleteAllStep 2 2 (GcBlock.mk true, [gcActiveRow, gcMarkedRow])).1.is_full
      = false :=
  c5_purge_resets_is_full.2.1 2 2 (GcBlock.mk true) [gcActiveRow, gcMarkedRow]
    (by decide)

/-- C6: a public block that passes the overlap validation overlaps no
stored public block regardless of network_id; creating a public block
overlapping an existing public block yields the validation error naming
the overlapped block's cidr; and identical cidrs pass the overlap
validation when the two blocks are private with different network_ids,
or with no network_id at all. -/
theorem c6_public_blocks_never_overlap :
    (∀ store nb, nb.btype = "public" → cidrOverlapValid store nb = true →
        ∀ b ∈ store, b.btype = "public" → overlapsCidr nb b = false) ∧
    publicOverlapErrors [pubBlock8] pubBlock30 =
      ["cidr overlaps with public block 10.0.0.0/8"] ∧
    cidrOverlapValid [privBlockNet1] privBlockNet2 = true ∧
    cidrOverlapValid [privBlockNoNet] privBlockNoNet = true := by
  refine ⟨?_, by decide, by decide, by decide⟩
  intro store nb htype hvalid b hb hbpub
  rw [cidrOverlapValid, List.isEmpty_iff, List.append_eq_nil] at hvalid
  have hpub := hvalid.2
  rw [publicOverlapErrors, if_pos (by simp [htype])] at hpub
  rw [List.map_eq_nil_iff, List.filter_eq_nil_iff] at hpub
  have hnb := hpub b hb
  refine Bool.eq_false_iff.mpr ?_
  intro hov
  exact hnb (by simp [hbpub, hov])

/-- C6 witness: the universal part applies to a concrete valid public
block 20.0.0.0/29 against a store holding public 10.0.0.0/8. -/
theorem c6_public_blocks_never_overlap_witness :
    overlapsCidr pubBlock20 pubBlock8 = false :=
  c6_public_blocks_never_overlap.1 [pubBlock8] pubBlock20 rfl (by decide)
    pubBlock8 (List.mem_singleton.mpr rfl) rfl

/-- C7: for a negative offset, IpRange.contains holds exactly for the
addresses of the cidr whose 0-based index idx satisfies
last + offset + 1 ≤ idx < last + offset + 1 + length where last is
addressCount - 1; in particular IpRange(offset = -3, length = 2) on
10.0.0.0/29 contains 10.0.0.5 but not 10.0.0.7. -/
theorem c7_range_contains_negative_offset (offset : Int) (len : Nat)
    (c : Cidr) (a : Nat) (hneg : offset < 0) (hlo : c.net ≤ a)
    (hhi : a < c.net + addressCount c) :
    (rangeContains offset len c a = true ↔
      ((addressCount c : Int) - 1) + offset + 1 ≤ indexOfAddr c a ∧
        indexOfAddr c a <
          ((addressCount c : Int) - 1) + offset + 1 + (len : Int)) ∧
    rangeContains (-3) 2 c7Cidr (ipv4 10 0 0 5) = true ∧
    rangeContains (-3) 2 c7Cidr (ipv4 10 0 0 7) = false := by
  refine ⟨?_, by decide, by decide⟩
  rw [rangeContains]
  simp only [indexOfAddr, if_neg (by omega : ¬ (0 : Int) ≤ offset),
    Bool.and_eq_true, decide_eq_true_iff]
  constructor
  · rintro ⟨⟨⟨h1, h2⟩, h3⟩, h4⟩
    exact ⟨by omega, by omega⟩
  · rintro ⟨h1, h2⟩
    refine ⟨⟨⟨by omega, by omega⟩, by omega⟩, by omega⟩

/-- C7 witness: the characterization applies to the concrete range
(offset -3, length 2) on 10.0.0.0/29 at address 10.0.0.5. -/
theorem c7_range_contains_witness :
    rangeContains (-3) 2 c7Cidr (ipv4 10 0 0 5) = true :=
  (c7_range_contains_negative_offset (-3) 2 c7Cidr (ipv4 10 0 0 5)
    (by decide) (by decide) (by decide)).2.1

/-- C8 counterexample: the stored form of 10.11.003.255 is 10.11.3.255,
which differs from the zero-padded rendering the claim describes
(010.011.003.255): IPv4 canonicalization removes zero padding rather
than applying it. -/
theorem c8_counterexample_v4_padding_removed :
    expandAddress "10.11.003.255" = "10.11.3.255" ∧
    claimedV4Canonical "10.11.003.255" = "010.011.003.255" ∧
    expandAddress "10.11.003.255" ≠ claimedV4Canonical "10.11.003.255" := by
  decide

/-- Helper: splitChar never returns the empty list. -/
theorem splitChar_ne_nil (c : Char) (l : List Char) : splitChar c l ≠ [] := by
  induction l with
  | nil => simp [splitChar]
  | cons x xs ih =>
    by_cases hx : x = c
    · simp [splitChar, hx]
    · cases h : splitChar c xs with
      | nil => exact absurd h ih
      | cons g gs => simp [splitChar, hx, h]

/-- Helper: a group free of the separator splits into itself. -/
theorem splitChar_no_sep (c : Char) (g : List Char) (h : c ∉ g) :
    splitChar c g = [g] := by
  induction g with
  | nil => rfl
  | cons x xs ih =>
    have hx : ¬ x = c := by
      intro he
      exact h (by rw [he]; exact List.mem_cons_self c xs)
    have hxs : c ∉ xs := fun hm => h (List.mem_cons_of_mem _ hm)
    simp [splitChar, hx, ih hxs]

/-- Helper: splitting past a leading separator-free group peels it off. -/
theorem splitChar_append_sep (c : Char) (p rest : List Char) (h : c ∉ p) :
    splitChar c (p ++ c :: rest) = p :: splitChar c rest := by
  induction p with
  | nil => simp [splitChar]
  | cons x xs ih =>
    have hx : ¬ x = c := by
      intro he
      exact h (by rw [he]; exact List.mem_cons_self c xs)
    have hxs : c ∉ xs := fun hm => h (List.mem_cons_of_mem _ hm)
    simp [splitChar, hx, ih hxs]

/-- Helper: splitChar is a left inverse of joinChar on nonempty group
lists whose groups are free of the separator. -/
theorem splitChar_joinChar (c : Char) :
    ∀ parts : List (List Char), parts ≠ [] → (∀ p ∈ parts, c ∉ p) →
      splitChar c (joinChar c parts) = parts := by
  intro parts
  induction parts with
  | nil => intro h _; exact absurd rfl h
  | cons p ps ih =>
    intro _ hmem
    cases ps with
    | nil =>
      simp only [joinChar]
      exact splitChar_no_sep c p (hmem p (List.mem_cons_self _ _))
    | cons q qs =>
      simp only [joinChar]
      rw [splitChar_append_sep c p _ (hmem p (List.mem_cons_self _ _))]
      rw [ih (by simp) (fun r hr => hmem r (List.mem_cons_of_mem _ hr))]

/-- Helper: the character of a decimal digit value is a digit. -/
theorem isDigit_ofNat_digit (m : Nat) (h : m < 10) :
    (Char.ofNat (48 + m)).isDigit = true := by
  interval_cases m <;> decide

/-- Helper: the character of a decimal digit value has that code. -/
theorem toNat_ofNat_digit (m : Nat) (h : m < 10) :
    (Char.ofNat (48 + m)).toNat = 48 + m := by
  interval_cases m <;> decide

/-- Helper: the character of a nonzero decimal digit value is not 0. -/
theorem ofNat_digit_ne_zero (m : Nat) (h1 : 1 ≤ m) (h : m < 10) :
    Char.ofNat (48 + m) ≠ '0' := by
  interval_cases m <;> decide

/-- Helper: with sufficient fuel, decDigitsCore produces a nonempty
digit string without leading zero whose decimal value is the input. -/
theorem decDigitsCore_spec :
    ∀ fuel n, 1 ≤ fuel → n < 10 ^ fuel →
      decDigitsCore fuel n ≠ [] ∧
      (∀ c ∈ decDigitsCore fuel n, c.isDigit = true) ∧
      (1 ≤ n → (decDigitsCore fuel n).head? ≠ some '0') ∧
      parseDecChars (decDigitsCore fuel n) = n := by
  intro fuel
  induction fuel with
  | zero => intro n h; omega
  | succ k ih =>
    intro n _ hlt
    by_cases h10 : n < 10
    · simp only [decDigitsCore, if_pos h10]
      refine ⟨by simp, ?_, ?_, ?_⟩
      · intro c hc
        rw [List.mem_singleton] at hc
        subst hc
        exact isDigit_ofNat_digit n h10
      · intro h1 hhead
        rw [List.head?_cons] at hhead
        exact ofNat_digit_ne_zero n h1 h10 (Option.some.inj hhead)
      · simp only [parseDecChars, List.foldl_cons, List.foldl_nil]
        rw [toNat_ofNat_digit n h10]
        omega
    · have hk1 : 1 ≤ k := by
        rcases Nat.eq_zero_or_pos k with rfl | h
        · norm_num at hlt
          omega
        · exact h
      have hdiv : n / 10 < 10 ^ k := by
        rw [pow_succ] at hlt
        omega
      obtain ⟨hne, hdig, hhead, hparse⟩ := ih (n / 10) hk1 hdiv
      simp only [decDigitsCore, if_neg h10]
      refine ⟨by simp, ?_, ?_, ?_⟩
      · intro c hc
        rw [List.mem_append] at hc
        rcases hc with hc | hc
        · exact hdig c hc
        · rw [List.mem_singleton] at hc
          subst hc
          exact isDigit_ofNat_digit (n % 10) (Nat.mod_lt _ (by omega))
      · intro _
        cases hrec : decDigitsCore k (n / 10) with
        | nil => exact absurd hrec hne
        | cons a l =>
          rw [List.cons_append, List.head?_cons]
          intro hhead2
          exact hhead (by omega) (by rw [hrec, List.head?_cons]; exact hhead2)
      · simp only [parseDecChars, List.foldl_append, List.foldl_cons,
          List.foldl_nil] at hparse ⊢
        rw [hparse, toNat_ofNat_digit (n % 10) (Nat.mod_lt _ (by omega))]
        omega

/-- Helper: the canonical decimal rendering of any natural number is a
nonempty digit string without leading zero that parses back to it. -/
theorem decDigits_spec (n : Nat) :
    decDigits n ≠ [] ∧ (∀ c ∈ decDigits n, c.isDigit = true) ∧
      isCanonicalDecGroup (decDigits n) = true ∧
      parseDecChars (decDigits n) = n := by
  have hfuel : n < 10 ^ (n + 1) :=
    lt_of_lt_of_le (Nat.lt_pow_self (by omega) n)
      (Nat.pow_le_pow_right (by omega) (Nat.le_succ n))
  obtain ⟨hne, hdig, hhead, hparse⟩ :=
    decDigitsCore_spec (n + 1) n (by omega) hfuel
  refine ⟨hne, hdig, ?_, hparse⟩
  rw [isCanonicalDecGroup]
  simp only [Bool.and_eq_true, Bool.or_eq_true, Bool.not_eq_true']
  refine ⟨⟨?_, List.all_eq_true.mpr hdig⟩, ?_⟩
  · rw [List.isEmpty_eq_false]
    exact hne
  · rcases Nat.eq_zero_or_pos n with rfl | h1
    · left; decide
    · right
      rw [beq_eq_false_iff_ne]
      exact hhead h1

/-- Helper: hexDigitChar of a hex digit value is a lower-case hex
digit character. -/
theorem hexDigitChar_lower (m : Nat) (h : m < 16) :
    isLowerHexDigit (hexDigitChar m) = true := by
  interval_cases m <;> decide

/-- Helper: hex4Chars always yields exactly 4 lower-case hex digits. -/
theorem hex4Chars_spec (n : Nat) :
    (hex4Chars n).length = 4 ∧
      ∀ c ∈ hex4Chars n, isLowerHexDigit c = true := by
  refine ⟨rfl, ?_⟩
  intro c hc
  simp only [hex4Chars, List.mem_cons, List.not_mem_nil, or_false] at hc
  rcases hc with rfl | rfl | rfl | rfl <;>
    exact hexDigitChar_lower _ (Nat.mod_lt _ (by omega))

/-- Helper: a lower-case hex digit character is not a colon. -/
theorem isLowerHexDigit_ne_colon (c : Char) (h : isLowerHexDigit c = true) :
    c ≠ ':' := by
  intro he
  rw [he] at h
  exact absurd h (by decide)

/-- Helper: a digit character is not a dot. -/
theorem isDigit_ne_dot (c : Char) (h : c.isDigit = true) : c ≠ '.' := by
  intro he
  rw [he] at h
  exact absurd h (by decide)

/-- Helper: an admissible compressed v6 group list expands to exactly
8 groups. -/
theorem expandV6Groups_length (gs : List (List Char))
    (h : v6GroupsWellFormed gs = true) : (expandV6Groups gs).length = 8 := by
  by_cases he : gs.any List.isEmpty
  · unfold v6GroupsWellFormed at h
    rw [if_pos he, decide_eq_true_iff] at h
    unfold expandV6Groups
    rw [if_pos he]
    simp only [List.length_append, List.length_replicate]
    have hdecomp : (gs.filter (fun g => !g.isEmpty)).length =
        (gs.takeWhile (fun g => !g.isEmpty)).length +
          ((gs.dropWhile (fun g => !g.isEmpty)).filter
            (fun g => !g.isEmpty)).length := by
      have hall : (gs.takeWhile (fun g => !g.isEmpty)).filter
          (fun g => !g.isEmpty) = gs.takeWhile (fun g => !g.isEmpty) := by
        rw [List.filter_eq_self]
        intro a ha
        exact @List.mem_takeWhile_imp _ (fun g => !g.isEmpty) gs a ha
      conv_lhs =>
        rw [← List.takeWhile_append_dropWhile (fun g => !g.isEmpty) gs]
      rw [List.filter_append, hall, List.length_append]
    rw [hdecomp] at h
    omega
  · unfold v6GroupsWellFormed at h
    rw [if_neg he] at h
    unfold expandV6Groups
    rw [if_neg he]
    exact beq_iff_eq.mp h

/-- C8 amended: every stored address string is canonicalized before
save.  For every IPv6 input (an address containing a colon whose
compressed group list is admissible) the stored string consists of
exactly 8 colon-separated groups of exactly 4 lower-case hexadecimal
digits; for every IPv4 input, every dot-separated octet group of the
stored string is a nonempty digit string with no leading zero (zero
padding is removed, not applied), and the octet rendering is
value-preserving; the unit tests' two vectors evaluate as pinned. -/
theorem c8_amended_canonicalization :
    (∀ s : String, s.toList.contains ':' = true →
        v6GroupsWellFormed (splitChar ':' s.toList) = true →
        (splitChar ':' (expandAddress s).toList).length = 8 ∧
        ∀ g ∈ splitChar ':' (expandAddress s).toList,
          g.length = 4 ∧ ∀ ch ∈ g, isLowerHexDigit ch = true) ∧
    (∀ s : String, s.toList.contains ':' = false →
        ∀ g ∈ splitChar '.' (expandAddress s).toList,
          isCanonicalDecGroup g = true) ∧
    (∀ n : Nat, parseDecChars (decDigits n) = n) ∧
    expandAddress "fe:0:1::2" =
      "00fe:0000:0001:0000:0000:0000:0000:0002" ∧
    expandAddress "10.11.003.255" = "10.11.3.255" := by
  refine ⟨?_, ?_, fun n => (decDigits_spec n).2.2.2, by decide, by decide⟩
  · intro s hc hwf
    have hout : (expandAddress s).toList =
        joinChar ':' ((expandV6Groups (splitChar ':' s.toList)).map
          (fun g => hex4Chars (parseHexChars g))) := by
      unfold expandAddress
      rw [if_pos hc]
      rfl
    have hlen8 : (expandV6Groups (splitChar ':' s.toList)).length = 8 :=
      expandV6Groups_length _ hwf
    have hpartsne : (expandV6Groups (splitChar ':' s.toList)).map
        (fun g => hex4Chars (parseHexChars g)) ≠ [] := by
      intro hnil
      rw [List.map_eq_nil_iff] at hnil
      rw [hnil] at hlen8
      simp at hlen8
    have hnosep : ∀ p ∈ (expandV6Groups (splitChar ':' s.toList)).map
        (fun g => hex4Chars (parseHexChars g)), ':' ∉ p := by
      intro p hp hcp
      obtain ⟨g0, _, rfl⟩ := List.mem_map.mp hp
      exact isLowerHexDigit_ne_colon ':' ((hex4Chars_spec _).2 ':' hcp) rfl
    rw [hout, splitChar_joinChar ':' _ hpartsne hnosep]
    refine ⟨by rw [List.length_map]; exact hlen8, ?_⟩
    intro g hg
    obtain ⟨g0, _, rfl⟩ := List.mem_map.mp hg
    exact ⟨(hex4Chars_spec _).1, fun ch hch => (hex4Chars_spec _).2 ch hch⟩
  · intro s hc g hg
    have hout : (expandAddress s).toList =
        joinChar '.' ((splitChar '.' s.toList).map
          (fun g => decDigits (parseDecChars g))) := by
      unfold expandAddress
      rw [if_neg (by rw [hc]; simp)]
      rfl
    have hpartsne : (splitChar '.' s.toList).map
        (fun g => decDigits (parseDecChars g)) ≠ [] := by
      intro hnil
      rw [List.map_eq_nil_iff] at hnil
      exact splitChar_ne_nil '.' s.toList hnil
    have hnosep : ∀ p ∈ (splitChar '.' s.toList).map
        (fun g => decDigits (parseDecChars g)), '.' ∉ p := by
      intro p hp hcp
      obtain ⟨g0, _, rfl⟩ := List.mem_map.mp hp
      exact isDigit_ne_dot '.' ((decDigits_spec _).2.1 '.' hcp) rfl
    rw [hout, splitChar_joinChar '.' _ hpartsne hnosep] at hg
    obtain ⟨g0, _, rfl⟩ := List.mem_map.mp hg
    exact (decDigits_spec _).2.2.1

/-- C8 witness: the universal v6 clause applies to the test vector
fe:0:1::2, whose stored form has exactly 8 groups. -/
theorem c8_amended_witness :
    (splitChar ':' (expandAddress "fe:0:1::2").toList).length = 8 :=
  (c8_amended_canonicalization.1 "fe:0:1::2" (by decide) (by decide)).1

/-- C9 counterexample: when the caller-supplied id and timestamps happen
to coincide with the generated id and the injected clock's value, the
stored values equal the supplied inputs, so the claim's "the stored
values differ from the supplied inputs" is false for these inputs. -/
theorem c9_counterexample_coinciding_inputs :
    (mbCreate c9Input "gid-1" "2050-01-01").mid = c9Input.mid ∧
    (mbCreate c9Input "gid-1" "2050-01-01").created_at = c9Input.created_at ∧
    (mbCreate c9Input "gid-1" "2050-01-01").updated_at = c9Input.updated_at :=
  by decide

/-- C9 amended: create stores the generated id and sets both timestamps
from the injected clock, and update keeps id and created_at and sets
updated_at from the clock, in every case independently of the
caller-supplied values for those attributes (so the stored values differ
from the supplied inputs whenever those differ from the generated
values); ordinary attributes follow the inputs. -/
theorem c9_amended_auto_generated_attrs (inp : MInput) (m : MBase)
    (genId now later : String) :
    (mbCreate inp genId now).mid = some genId ∧
    (mbCreate inp genId now).created_at = some now ∧
    (mbCreate inp genId now).updated_at = some now ∧
    (mbCreate inp genId now).network_id = inp.network_id ∧
    (mbUpdate m inp later).mid = m.mid ∧
    (mbUpdate m inp later).created_at = m.created_at ∧
    (mbUpdate m inp later).updated_at = some later :=
  ⟨rfl, rfl, rfl, rfl, rfl, rfl, rfl⟩

/-- C9 witness: the amended theorem applies at a concrete input whose
supplied timestamps differ from the clock value. -/
theorem c9_amended_witness :
    (mbCreate (MInput.mk (some "x") (some "y") (some "z") none) "g2" "t2").mid
      = some "g2" :=
  (c9_amended_auto_generated_attrs
    (MInput.mk (some "x") (some "y") (some "z") none)
    (MBase.mk none none none none) "g2" "t2" "t3").1

/-- C10: model equality compares only the class tag and the id: same
class and equal present ids are equal whatever the other attributes;
an instance with no id equals nothing (in either direction), including
an identically built instance; different classes with equal ids are
unequal. -/
theorem c10_model_equality (a b : MRec) :
    (∀ i, a.cls = b.cls → a.mid = some i → b.mid = some i →
        modelEq a b = true) ∧
    (a.mid = none → modelEq a b = false ∧ modelEq b a = false) ∧
    (a.cls ≠ b.cls → modelEq a b = false) := by
  refine ⟨?_, ?_, ?_⟩
  · intro i hcls ha hb
    simp [modelEq, hcls, ha, hb]
  · intro ha
    constructor
    · simp [modelEq, ha]
    · cases hbm : b.mid <;> simp [modelEq, ha, hbm]
  · intro hcls
    simp [modelEq, hcls]

/-- C10 witness: two IpBlock instances with id 1 and different name
attributes are equal; the theorem applies at that concrete input. -/
theorem c10_model_equality_witness :
    modelEq (MRec.mk "IpBlock" (some 1) [("name", "foo")])
      (MRec.mk "IpBlock" (some 1) [("name", "bar")]) = true :=
  (c10_model_equality (MRec.mk "IpBlock" (some 1) [("name", "foo")])
    (MRec.mk "IpBlock" (some 1) [("name", "bar")])).1 1 rfl rfl rfl

end Melange
